import Mathlib

/-!
Verification of the undo/redo history manager in `traitsui/undo.py`.

The Python module is shallowly embedded below: Python values that can occur
in undo records are modelled by `PyVal`, the mutable object universe by a
`World` mapping (object id, trait name) pairs to values, and each class of
the module (`UndoItem`, `ListUndoItem`, `UndoHistory`, `UndoHistoryUndoItem`)
by a structure whose methods become pure functions.  `setattr` faults raised
by the external object model are represented by an `ObjModel` validity
predicate; the fault sink (`raise_to_debug`, which lives outside this
module) is modelled from the spec as accumulation of `Fault` values into a
returned list.
-/

set_option autoImplicit false

namespace Traitsui

/-- A Python value as it can appear in an undo record: text, bytes, the
numeric scalar types, lists, or `None`.  Floats and complex numbers only
ever get compared for equality by `undo.py`, so they are modelled as opaque
values distinguished by an integer tag. -/
inductive PyVal where
  | vstr (s : List Char)
  | vbytes (b : List Nat)
  | vint (n : Int)
  | vfloat (f : Int)
  | vcomplex (c : Int)
  | vlist (xs : List PyVal)
  | vnone

mutual

/-- Python `==` on the modelled values (only ever used between values of the
same type in `undo.py`, where it is structural equality). -/
def PyVal.beq : PyVal → PyVal → Bool
  | .vstr a, .vstr b => a == b
  | .vbytes a, .vbytes b => a == b
  | .vint a, .vint b => a == b
  | .vfloat a, .vfloat b => a == b
  | .vcomplex a, .vcomplex b => a == b
  | .vlist a, .vlist b => PyVal.beqList a b
  | .vnone, .vnone => true
  | _, _ => false

def PyVal.beqList : List PyVal → List PyVal → Bool
  | [], [] => true
  | a :: as, b :: bs => PyVal.beq a b && PyVal.beqList as bs
  | _, _ => false

end

/-- The Python type of a value (`type(v)` in the source). -/
inductive PyType where
  | tstr | tbytes | tint | tfloat | tcomplex | tlist | tnone
  deriving DecidableEq

def pyType : PyVal → PyType
  | .vstr _ => .tstr
  | .vbytes _ => .tbytes
  | .vint _ => .tint
  | .vfloat _ => .tfloat
  | .vcomplex _ => .tcomplex
  | .vlist _ => .tlist
  | .vnone => .tnone

/-- `SimpleTypes = (six.text_type, bytes) + six.integer_types + (float, complex)`
from `undo.py`, as a membership test on exact types. -/
def isSimpleType : PyType → Bool
  | .tstr | .tbytes | .tint | .tfloat | .tcomplex => true
  | _ => false

/-- `NumericTypes = six.integer_types + (float, complex)` from `undo.py`. -/
def numericType : PyType → Bool
  | .tint | .tfloat | .tcomplex => true
  | _ => false

/-- `isinstance(v, t)` for the modelled types: none of them is a subclass of
another, so the test is exact type equality. -/
def isinstanceOf (v : PyVal) (t : PyType) : Bool :=
  pyType v == t

/-- The `collections.Sequence` types among the modelled ones:
strings, bytes and lists. -/
def isSeqType : PyType → Bool
  | .tstr | .tbytes | .tlist => true
  | _ => false

def isSeq (v : PyVal) : Bool :=
  isSeqType (pyType v)

/-- The elements obtained by iterating / indexing a Python sequence:
indexing a string yields one-character strings, indexing bytes yields
integers, indexing a list yields its items. -/
def seqElems : PyVal → Option (List PyVal)
  | .vstr s => some (s.map (fun c => .vstr [c]))
  | .vbytes b => some (b.map (fun n => .vint (Int.ofNat n)))
  | .vlist xs => some xs
  | _ => none

example : isSeq (.vstr ['a']) = true := rfl
example : isSeq (.vint 3) = false := rfl
example : seqElems (.vstr ['a', 'b']) = some [.vstr ['a'], .vstr ['b']] := rfl

/-! ### The external object model

`undo.py` touches object state only through `getattr`/`setattr` and in-place
list slice assignment; the objects themselves live outside the module.  A
`World` maps (object id, trait name) to the trait's current value, and an
`ObjModel` says which `setattr` calls the external object accepts — a
rejected call is the "target mutation fault" of the spec. -/

/-- The state of all observed objects: object ids are natural numbers,
trait names strings. -/
def World : Type := Nat → String → PyVal

def emptyWorld : World := fun _ _ => .vnone

/-- `getattr(obj, name)` (on a `HasTraits` object every defined trait reads
back a value; missing traits read as `None` here). -/
def getF (w : World) (o : Nat) (n : String) : PyVal := w o n

/-- Unchecked write of a trait value. -/
def setF (w : World) (o : Nat) (n : String) (v : PyVal) : World :=
  fun o' n' => if o' = o ∧ n' = n then v else w o' n'

/-- A fault raised by the external object model during `setattr` or a list
splice, identified by the object and trait it was raised for. -/
inductive Fault where
  | fault (o : Nat) (n : String)
  deriving DecidableEq

/-- Which `setattr` calls the external object model accepts.  `valid` false
models trait validation rejecting the value (or a dead target). -/
structure ObjModel where
  valid : Nat → String → PyVal → Bool

/-- The object model in which every `setattr` succeeds. -/
def pureModel : ObjModel := ⟨fun _ _ _ => true⟩

/-- `setattr(obj, name, value)`: faults when the object model rejects it. -/
def trySetattr (M : ObjModel) (w : World) (o : Nat) (n : String) (v : PyVal) :
    Except Fault World :=
  if M.valid o n v then .ok (setF w o n v) else .error (.fault o n)

/-- Python list slice assignment `l[i:j] = x` for non-negative bounds:
indices clamp to the list length and `j` clamps up to `i`. -/
def spliceAssign (l : List PyVal) (i j : Nat) (x : List PyVal) : List PyVal :=
  let i' := min i l.length
  let j' := min (max j i') l.length
  l.take i' ++ x ++ l.drop j'

example : spliceAssign [.vint 1, .vint 2, .vint 3] 0 1 [.vint 7, .vint 8]
    = [.vint 7, .vint 8, .vint 2, .vint 3] := rfl

/-- Signals fired by `UndoHistory` via its `undoable` / `redoable` events,
in emission order. -/
inductive Sig where
  | undoable (b : Bool)
  | redoable (b : Bool)
  deriving DecidableEq

/-! ### `UndoItem`: a change to an object trait -/

/-- `UndoItem`: a recorded change of trait `name` on object `obj` from
`old_value` to `new_value`.  (The Python property setters snapshot list
values; values are immutable here, so the snapshot is implicit.) -/
structure UndoItem where
  obj : Nat
  name : String
  old_value : PyVal
  new_value : PyVal

/-- `UndoItem.undo`: `setattr(self.object, self.name, self.old_value)`, with
any fault caught and routed to the fault sink (the returned `Fault` list). -/
def UndoItem.undo (M : ObjModel) (r : UndoItem) (w : World) :
    World × List Fault :=
  match trySetattr M w r.obj r.name r.old_value with
  | .ok w' => (w', [])
  | .error f => (w, [f])

/-- `UndoItem.redo`: `setattr(self.object, self.name, self.new_value)`, with
any fault caught and routed to the fault sink. -/
def UndoItem.redo (M : ObjModel) (r : UndoItem) (w : World) :
    World × List Fault :=
  match trySetattr M w r.obj r.name r.new_value with
  | .ok w' => (w', [])
  | .error f => (w, [f])

/-- The test on line 130 of `undo.py`: `isinstance(t1, six.string_types)`
where `t1 = type(v1)`.  A type object is never an instance of `str`, so the
test is false for every value; the string-merge branch it guards is dead. -/
def isinstance_type_str (_v1 : PyVal) : Bool := false

/-- Count of equal leading characters of two strings
(the `while (i < n) and (v1[i] == v2[i])` scan). -/
def commonLen : List Char → List Char → Nat
  | a :: as, b :: bs => if a = b then commonLen as bs + 1 else 0
  | _, _ => 0

/-- Body of the string branch of `UndoItem.merge_undo` (lines 135-145):
merge when the two new values differ by at most one single-character
insertion, deletion or replacement.  Unreachable in the source because its
guard (see `isinstance_type_str`) is always false. -/
def stringMerge (self : UndoItem) (v2 : PyVal) : Option UndoItem :=
  match self.new_value, v2 with
  | .vstr s1, .vstr s2 =>
    let n1 := s1.length
    let n2 := s2.length
    if ((n1 : Int) - (n2 : Int)).natAbs > 1 then none
    else
      let i := commonLen s1 s2
      if s1.drop (i + (if n2 ≤ n1 then 1 else 0))
          == s2.drop (i + (if n2 ≥ n1 then 1 else 0)) then
        some { self with new_value := v2 }
      else none
  | _, _ => none

/-- One position of the sequence-merge scan counts as a difference when the
original element's type is not simple, the candidate element is not of the
same type, or the values differ (lines 160-165). -/
def isDiff (item item2 : PyVal) : Bool :=
  !isSimpleType (pyType item) || !(pyType item2 == pyType item)
    || !PyVal.beq item item2

/-- Number of differing positions between two equal-length element lists. -/
def countDiffs : List PyVal → List PyVal → Nat
  | a :: as, b :: bs => (if isDiff a b then 1 else 0) + countDiffs as bs
  | _, _ => 0

/-- Body of the sequence branch of `UndoItem.merge_undo` (lines 147-173):
merge only when the candidate's new value has the same length as the
*original* old value and differs from it in exactly one position. -/
def seqMerge (self : UndoItem) (v2 : PyVal) : Option UndoItem :=
  let v1 := self.old_value
  if isSeq v1 then
    match seqElems v1, seqElems v2 with
    | some xs, some ys =>
      if xs.length = ys.length then
        let diffs := countDiffs xs ys
        if 2 ≤ diffs then none
        else if diffs = 0 then none
        else some { self with new_value := v2 }
      else none
    | _, _ => none
  else none

/-- `UndoItem.merge_undo` (lines 117-179).  `some r'` models `return True`
with `self` mutated to `r'`; `none` models `return False`. -/
def UndoItem.merge_undo (self other : UndoItem) : Option UndoItem :=
  if self.obj = other.obj ∧ self.name = other.name then
    let v1 := self.new_value
    let v2 := other.new_value
    if isinstanceOf v2 (pyType v1) then
      if isinstance_type_str v1 then
        stringMerge self v2
      else if isSeq v1 then
        seqMerge self v2
      else if numericType (pyType v1) then
        some { self with new_value := v2 }
      else none
    else none
  else none

/-! ### `ListUndoItem`: a change to a list trait -/

/-- `ListUndoItem`: a splice on the list held by trait `name` of object
`obj`; redo replaces `[index, index + len removed)` with `added`, undo
replaces `[index, index + len added)` with `removed`. -/
structure ListUndoItem where
  obj : Nat
  name : String
  index : Nat
  added : List PyVal
  removed : List PyVal

/-- `ListUndoItem.undo` (lines 212-220): splice `removed` back in place of
`added`; a target whose trait is not a list raises, which is caught and
routed to the fault sink. -/
def ListUndoItem.undo (r : ListUndoItem) (w : World) : World × List Fault :=
  match getF w r.obj r.name with
  | .vlist xs =>
    (setF w r.obj r.name
      (.vlist (spliceAssign xs r.index (r.index + r.added.length) r.removed)), [])
  | _ => (w, [.fault r.obj r.name])

/-- `ListUndoItem.redo` (lines 222-230): splice `added` in place of
`removed`. -/
def ListUndoItem.redo (r : ListUndoItem) (w : World) : World × List Fault :=
  match getF w r.obj r.name with
  | .vlist xs =>
    (setF w r.obj r.name
      (.vlist (spliceAssign xs r.index (r.index + r.removed.length) r.added)), [])
  | _ => (w, [.fault r.obj r.name])

/-- `ListUndoItem.merge_undo` (lines 232-255): pure deduplication — report a
merge (without changing `self`) exactly when the candidate records the same
splice, item for item.  Python compares items with `is`; identity is
modelled by value equality. -/
def ListUndoItem.merge_undo (self other : ListUndoItem) : Bool :=
  self.obj = other.obj ∧ self.name = other.name ∧ self.index = other.index
    ∧ self.added.length = other.added.length
    ∧ self.removed.length = other.removed.length
    ∧ PyVal.beqList self.added other.added
    ∧ PyVal.beqList self.removed other.removed

/-! ### Change records and transaction replay -/

/-- The undo items that `undo.py` defines and stores in histories.
(`UndoHistoryUndoItem` is modelled separately below; it never carries
itself.) -/
inductive ChangeRecord where
  | undoItem (r : UndoItem)
  | listUndoItem (r : ListUndoItem)

/-- Dispatch of `undo` over the record classes. -/
def ChangeRecord.undo (M : ObjModel) : ChangeRecord → World → World × List Fault
  | .undoItem r, w => r.undo M w
  | .listUndoItem r, w => r.undo w

/-- Dispatch of `redo` over the record classes. -/
def ChangeRecord.redo (M : ObjModel) : ChangeRecord → World → World × List Fault
  | .undoItem r, w => r.redo M w
  | .listUndoItem r, w => r.redo w

/-- Dispatch of `merge_undo`: `isinstance(undo_item, self.__class__)` makes
records of different classes unmergeable. -/
def ChangeRecord.merge_undo : ChangeRecord → ChangeRecord → Option ChangeRecord
  | .undoItem r, .undoItem s => (r.merge_undo s).map .undoItem
  | .listUndoItem r, .listUndoItem s =>
    if r.merge_undo s then some (.listUndoItem r) else none
  | _, _ => none

/-- The loop `for i in range(len(items) - 1, -1, -1): items[i].undo()` of
`UndoHistory.undo`, generic in the item action: replay in reverse order,
accumulating the faults each caught `undo` routed to the sink. -/
def replayUndo {α : Type} (uact : α → World → World × List Fault)
    (items : List α) (w : World) : World × List Fault :=
  items.foldr
    (fun it acc => let r := uact it acc.1; (r.1, acc.2 ++ r.2)) (w, [])

/-- The loop `for item in items: item.redo()` of `UndoHistory.redo`:
replay in forward order. -/
def replayRedo {α : Type} (ract : α → World → World × List Fault)
    (items : List α) (w : World) : World × List Fault :=
  items.foldl
    (fun acc it => let r := ract it acc.1; (r.1, acc.2 ++ r.2)) (w, [])

/-- Undo replay of one transaction of change records. -/
def transactionUndo (M : ObjModel) (items : List ChangeRecord) (w : World) :
    World × List Fault :=
  replayUndo (ChangeRecord.undo M) items w

/-- Redo replay of one transaction of change records. -/
def transactionRedo (M : ObjModel) (items : List ChangeRecord) (w : World) :
    World × List Fault :=
  replayRedo (ChangeRecord.redo M) items w

/-! ### `UndoHistory`: the timeline

`UndoHistory` is duck-typed over the items it stores: it only calls their
`merge_undo`, `undo` and `redo`.  The embedding is correspondingly generic
in the item type `α`, a merge function `μ` (`some r'` = successful merge
mutating the receiver into `r'`) and undo/redo actions on the world. -/

/-- `UndoHistory` state: `history` is the list of transactions (each a list
of items), `now` the cursor. -/
structure UndoHistory (α : Type) where
  history : List (List α)
  now : Int

def emptyHistory (α : Type) : UndoHistory α := ⟨[], 0⟩

/-- `_get_can_undo`: `self.now > 0`. -/
def UndoHistory.can_undo {α : Type} (h : UndoHistory α) : Bool :=
  decide (0 < h.now)

/-- `_get_can_redo`: `self.now < len(self.history)`. -/
def UndoHistory.can_redo {α : Type} (h : UndoHistory α) : Bool :=
  decide (h.now < (h.history.length : Int))

/-- The merge attempt of `UndoHistory.add` (lines 297-302): when the cursor
is positive and the transaction just behind it holds exactly one item that
merges with the new item, the result is the history with that item replaced
by the merged one and everything from the cursor on truncated
(`self.history[now:] = []`); no signal is emitted. -/
def addMergeStep {α : Type} (μ : α → α → Option α) (h : UndoHistory α)
    (item : α) : Option (UndoHistory α) :=
  if 0 < h.now then
    match h.history.getD (h.now - 1).toNat [] with
    | [p] =>
      match μ p item with
      | some m =>
        some ⟨(h.history.set (h.now - 1).toNat [m]).take h.now.toNat, h.now⟩
      | none => none
    | _ => none
  else none

/-- `UndoHistory.extend` (lines 312-321): when the cursor is positive, try
to merge the item into the last record of the transaction just behind the
cursor, appending it to that transaction if the merge fails.  When the
cursor is 0 nothing happens. -/
def UndoHistory.extend {α : Type} (μ : α → α → Option α) (h : UndoHistory α)
    (item : α) : UndoHistory α :=
  if 0 < h.now then
    let k := (h.now - 1).toNat
    let ulist := h.history.getD k []
    match ulist.getLast? with
    | some lastI =>
      match μ lastI item with
      | some m => { h with history := h.history.set k (ulist.dropLast ++ [m]) }
      | none => { h with history := h.history.set k (ulist ++ [item]) }
    | none => h
  else h

/-- `UndoHistory.add` (lines 289-310).  Returns the new state and the
signals emitted, in order. -/
def UndoHistory.add {α : Type} (μ : α → α → Option α) (h : UndoHistory α)
    (item : α) (ext : Bool) : UndoHistory α × List Sig :=
  if ext then (h.extend μ item, [])
  else
    match addMergeStep μ h item with
    | some h' => (h', [])
    | none =>
      let old_len := h.history.length
      let h' : UndoHistory α := ⟨h.history.take h.now.toNat ++ [[item]], h.now + 1⟩
      (h', (if h'.now = 1 then [Sig.undoable true] else [])
        ++ (if h'.now ≤ (old_len : Int) then [Sig.redoable false] else []))

/-- `UndoHistory.undo` (lines 323-334): guarded by `can_undo`; decrement the
cursor, replay that transaction's items in reverse, then emit the signal
flips. -/
def UndoHistory.undoOp {α : Type} (uact : α → World → World × List Fault)
    (h : UndoHistory α) (w : World) :
    UndoHistory α × World × List Fault × List Sig :=
  if 0 < h.now then
    let now' := h.now - 1
    let items := h.history.getD now'.toNat []
    let r := replayUndo uact items w
    (⟨h.history, now'⟩, r.1, r.2,
      (if now' = 0 then [Sig.undoable false] else [])
        ++ (if now' = (h.history.length : Int) - 1 then [Sig.redoable true] else []))
  else (h, w, [], [])

/-- `UndoHistory.redo` (lines 336-346): guarded by `can_redo`; increment the
cursor, replay the transaction now behind it in forward order, then emit the
signal flips. -/
def UndoHistory.redoOp {α : Type} (ract : α → World → World × List Fault)
    (h : UndoHistory α) (w : World) :
    UndoHistory α × World × List Fault × List Sig :=
  if h.now < (h.history.length : Int) then
    let now' := h.now + 1
    let items := h.history.getD (now' - 1).toNat []
    let r := replayRedo ract items w
    (⟨h.history, now'⟩, r.1, r.2,
      (if now' = 1 then [Sig.undoable true] else [])
        ++ (if now' = (h.history.length : Int) then [Sig.redoable false] else []))
  else (h, w, [], [])

/-- `UndoHistory.clear` (lines 358-368): reset the state and emit the signal
flips computed from the old state. -/
def UndoHistory.clearOp {α : Type} (h : UndoHistory α) :
    UndoHistory α × List Sig :=
  (⟨[], 0⟩,
    (if 0 < h.now then [Sig.undoable false] else [])
      ++ (if h.now < (h.history.length : Int) then [Sig.redoable false] else []))

/-- One call of the timeline's public mutating interface. -/
inductive HOp (α : Type) where
  | add (item : α) (ext : Bool)
  | undo
  | redo
  | clear

/-- Apply one call to (timeline, world). -/
def applyOp {α : Type} (μ : α → α → Option α)
    (uact ract : α → World → World × List Fault)
    (s : UndoHistory α × World) : HOp α → UndoHistory α × World
  | .add item ext => ((s.1.add μ item ext).1, s.2)
  | .undo => let r := UndoHistory.undoOp uact s.1 s.2; (r.1, r.2.1)
  | .redo => let r := UndoHistory.redoOp ract s.1 s.2; (r.1, r.2.1)
  | .clear => ((UndoHistory.clearOp s.1).1, s.2)

/-- Run a sequence of calls from the empty timeline. -/
def runOps {α : Type} (μ : α → α → Option α)
    (uact ract : α → World → World × List Fault)
    (ops : List (HOp α)) (w0 : World) : UndoHistory α × World :=
  ops.foldl (applyOp μ uact ract) (emptyHistory α, w0)

/-! ### `UndoHistoryUndoItem`: a nested timeline as one change record -/

/-- `UndoHistoryUndoItem`: wraps a whole `UndoHistory` of change records. -/
structure UndoHistoryUndoItem where
  history : UndoHistory ChangeRecord

/-- The loop `for i in range(history.now - 1, -1, -1)` of
`UndoHistoryUndoItem.undo`: undo transactions at indices `k-1` down to `0`,
each with its records in reverse order. -/
def replayHistUndo (M : ObjModel) (hs : List (List ChangeRecord)) :
    Nat → World × List Fault → World × List Fault
  | 0, acc => acc
  | k + 1, acc =>
    let r := transactionUndo M (hs.getD k []) acc.1
    replayHistUndo M hs k (r.1, acc.2 ++ r.2)

/-- The loop `for i in range(0, history.now)` of
`UndoHistoryUndoItem.redo`: redo transactions at indices `0` up to `k-1`,
each with its records in forward order. -/
def replayHistRedo (M : ObjModel) (hs : List (List ChangeRecord)) :
    Nat → World × List Fault → World × List Fault
  | 0, acc => acc
  | k + 1, acc =>
    let r := replayHistRedo M hs k acc
    let r' := transactionRedo M (hs.getD k []) r.1
    (r'.1, r.2 ++ r'.2)

/-- `UndoHistoryUndoItem.undo` (lines 395-402): a read-through replay — the
nested timeline is returned untouched because the method never assigns to
it. -/
def UndoHistoryUndoItem.undo (M : ObjModel) (u : UndoHistoryUndoItem)
    (w : World) : UndoHistoryUndoItem × World × List Fault :=
  let r := replayHistUndo M u.history.history u.history.now.toNat (w, [])
  (u, r.1, r.2)

/-- `UndoHistoryUndoItem.redo` (lines 404-410): forward read-through
replay. -/
def UndoHistoryUndoItem.redo (M : ObjModel) (u : UndoHistoryUndoItem)
    (w : World) : UndoHistoryUndoItem × World × List Fault :=
  let r := replayHistRedo M u.history.history u.history.now.toNat (w, [])
  (u, r.1, r.2)

/-! ### Supporting lemmas -/

theorem getF_setF_same (w : World) (o : Nat) (n : String) (v : PyVal) :
    getF (setF w o n v) o n = v := by
  simp [getF, setF]

/-- Slice assignment at an exactly-covered segment: replacing the segment
`mid` of `pre ++ mid ++ suf` (starting at `pre.length`) by `x`. -/
theorem spliceAssign_shape (pre mid suf x : List PyVal) :
    spliceAssign (pre ++ mid ++ suf) pre.length (pre.length + mid.length) x
      = pre ++ x ++ suf := by
  have hl : (pre ++ mid ++ suf).length = pre.length + (mid.length + suf.length) := by
    simp
  have hmin1 : min pre.length (pre ++ mid ++ suf).length = pre.length := by
    omega
  have hmax : max (pre.length + mid.length) pre.length = pre.length + mid.length := by
    omega
  have hmin2 : min (pre.length + mid.length) (pre ++ mid ++ suf).length
      = pre.length + mid.length := by omega
  have htake : (pre ++ (mid ++ suf)).take pre.length = pre :=
    List.take_left pre (mid ++ suf)
  have hdrop : (pre ++ mid ++ suf).drop (pre.length + mid.length) = suf := by
    rw [← List.append_assoc] at *
    have : (pre ++ mid).length = pre.length + mid.length := by simp
    rw [← this]
    exact List.drop_left (pre ++ mid) suf
  have hdrop2 : (pre ++ (mid ++ suf)).drop (pre.length + mid.length) = suf := by
    rw [← List.append_assoc]; exact hdrop
  simp only [spliceAssign, hmin1, hmax, hmin2]
  rw [List.append_assoc pre mid suf, htake, hdrop2, List.append_assoc]

/-- `spliceAssign_shape` in the right-associated form `simp` produces. -/
theorem spliceAssign_shape' (pre mid suf x : List PyVal) :
    spliceAssign (pre ++ (mid ++ suf)) pre.length (pre.length + mid.length) x
      = pre ++ (x ++ suf) := by
  have h := spliceAssign_shape pre mid suf x
  simpa [List.append_assoc] using h

/-! ### Claim C1 -/

/-- C1 counterexample: the splice record `index 0, added [9],
removed [1, 2]` on a field holding the pre-change list `[1, 2, 3]`.
Calling `undo()` then `redo()` starting from that pre-change state leaves
the field at `[9, 2, 3]`, which is not the record's post-change value
`[9, 3]` — so the undo-then-redo half of the claim fails for splice records
started at the pre-change state. -/
theorem c1_counterexample :
    getF ((ListUndoItem.redo ⟨0, "l", 0, [.vint 9], [.vint 1, .vint 2]⟩
        ((ListUndoItem.undo ⟨0, "l", 0, [.vint 9], [.vint 1, .vint 2]⟩
          (setF emptyWorld 0 "l" (.vlist [.vint 1, .vint 2, .vint 3]))).1)).1) 0 "l"
      = .vlist [.vint 9, .vint 2, .vint 3]
    ∧ PyVal.vlist [.vint 9, .vint 2, .vint 3] ≠ .vlist [.vint 9, .vint 3] := by
  constructor
  · rfl
  · intro h
    simp at h

/-- C1 (amended): for a field change record, `redo(); undo()` leaves the
target field at the old value and `undo(); redo()` leaves it at the new
value, from any starting state.  For a splice record on a list holding the
pre-change list `pre ++ removed ++ suf` (with `index = len pre`), `redo()`
replaces `[index, index + len removed)` with the added items, giving
`pre ++ added ++ suf`, and a subsequent `undo()` restores the original list
exactly; starting instead from the post-change list, `undo()` restores the
pre-change list and a subsequent `redo()` restores the post-change list. -/
theorem c1_round_trip :
    (∀ (r : UndoItem) (w : World),
      getF (UndoItem.undo pureModel r (UndoItem.redo pureModel r w).1).1
          r.obj r.name = r.old_value)
  ∧ (∀ (r : UndoItem) (w : World),
      getF (UndoItem.redo pureModel r (UndoItem.undo pureModel r w).1).1
          r.obj r.name = r.new_value)
  ∧ (∀ (o : Nat) (nm : String) (pre added removed suf : List PyVal) (w : World),
      getF (ListUndoItem.redo ⟨o, nm, pre.length, added, removed⟩
          (setF w o nm (.vlist (pre ++ removed ++ suf)))).1 o nm
        = .vlist (pre ++ added ++ suf)
      ∧ getF (ListUndoItem.undo ⟨o, nm, pre.length, added, removed⟩
            (ListUndoItem.redo ⟨o, nm, pre.length, added, removed⟩
              (setF w o nm (.vlist (pre ++ removed ++ suf)))).1).1 o nm
          = .vlist (pre ++ removed ++ suf))
  ∧ (∀ (o : Nat) (nm : String) (pre added removed suf : List PyVal) (w : World),
      getF (ListUndoItem.undo ⟨o, nm, pre.length, added, removed⟩
          (setF w o nm (.vlist (pre ++ added ++ suf)))).1 o nm
        = .vlist (pre ++ removed ++ suf)
      ∧ getF (ListUndoItem.redo ⟨o, nm, pre.length, added, removed⟩
            (ListUndoItem.undo ⟨o, nm, pre.length, added, removed⟩
              (setF w o nm (.vlist (pre ++ added ++ suf)))).1).1 o nm
          = .vlist (pre ++ added ++ suf)) := by
  refine ⟨?_, ?_, ?_, ?_⟩
  · intro r w
    simp [UndoItem.undo, UndoItem.redo, trySetattr, pureModel, getF_setF_same]
  · intro r w
    simp [UndoItem.undo, UndoItem.redo, trySetattr, pureModel, getF_setF_same]
  · intro o nm pre added removed suf w
    have h1 : (ListUndoItem.redo ⟨o, nm, pre.length, added, removed⟩
        (setF w o nm (.vlist (pre ++ removed ++ suf)))).1
        = setF (setF w o nm (.vlist (pre ++ removed ++ suf))) o nm
            (.vlist (pre ++ added ++ suf)) := by
      simp [ListUndoItem.redo, getF_setF_same, spliceAssign_shape, spliceAssign_shape']
    refine ⟨by rw [h1, getF_setF_same], ?_⟩
    rw [h1]
    simp [ListUndoItem.undo, getF_setF_same, spliceAssign_shape, spliceAssign_shape']
  · intro o nm pre added removed suf w
    have h1 : (ListUndoItem.undo ⟨o, nm, pre.length, added, removed⟩
        (setF w o nm (.vlist (pre ++ added ++ suf)))).1
        = setF (setF w o nm (.vlist (pre ++ added ++ suf))) o nm
            (.vlist (pre ++ removed ++ suf)) := by
      simp [ListUndoItem.undo, getF_setF_same, spliceAssign_shape, spliceAssign_shape']
    refine ⟨by rw [h1, getF_setF_same], ?_⟩
    rw [h1]
    simp [ListUndoItem.redo, getF_setF_same, spliceAssign_shape, spliceAssign_shape']

/-! ### Claim C2 -/

/-- The cursor invariant of a timeline. -/
def Inv {α : Type} (h : UndoHistory α) : Prop :=
  0 ≤ h.now ∧ h.now ≤ (h.history.length : Int)

theorem Inv_empty (α : Type) : Inv (emptyHistory α) := by
  constructor <;> simp [emptyHistory]

/-- The timeline produced by the extend path of `add`. -/
theorem extend_cases {α : Type} (μ : α → α → Option α) (h : UndoHistory α)
    (item : α) :
    (h.extend μ item).now = h.now
      ∧ (h.extend μ item).history.length = h.history.length := by
  unfold UndoHistory.extend
  split
  · dsimp only
    split
    · split <;> simp [List.length_set]
    · simp
  · simp

/-- A successful merge in `add` keeps the cursor and truncates the
transaction list to exactly `now` entries. -/
theorem addMergeStep_some {α : Type} {μ : α → α → Option α}
    {h : UndoHistory α} {item : α} {h' : UndoHistory α}
    (hm : addMergeStep μ h item = some h') (hI : Inv h) :
    h'.now = h.now ∧ (h'.history.length : Int) = h.now := by
  obtain ⟨hI1, hI2⟩ := hI
  unfold addMergeStep at hm
  split at hm
  case isTrue hpos =>
    split at hm
    case h_1 p heq =>
      split at hm
      case h_1 m hmerge =>
        cases hm
        refine ⟨rfl, ?_⟩
        simp only [List.length_take, List.length_set]
        omega
      case h_2 => exact absurd hm (by simp)
    case h_2 => exact absurd hm (by simp)
  case isFalse => exact absurd hm (by simp)

/-- `add` without extend and with a failing merge: truncate, append a fresh
single-item transaction, bump the cursor, emit the flips. -/
theorem add_append_eq {α : Type} (μ : α → α → Option α) (h : UndoHistory α)
    (item : α) (hm : addMergeStep μ h item = none) :
    h.add μ item false
      = (⟨h.history.take h.now.toNat ++ [[item]], h.now + 1⟩,
        (if h.now + 1 = 1 then [Sig.undoable true] else [])
          ++ (if h.now + 1 ≤ (h.history.length : Int)
              then [Sig.redoable false] else [])) := by
  unfold UndoHistory.add
  simp [hm]

/-- `add` without extend and with a successful merge returns the merged
state and emits nothing. -/
theorem add_merge_eq {α : Type} (μ : α → α → Option α) (h : UndoHistory α)
    (item : α) (h' : UndoHistory α) (hm : addMergeStep μ h item = some h') :
    h.add μ item false = (h', []) := by
  unfold UndoHistory.add
  simp [hm]

theorem add_ext_eq {α : Type} (μ : α → α → Option α) (h : UndoHistory α)
    (item : α) : h.add μ item true = (h.extend μ item, []) := by
  unfold UndoHistory.add
  simp

theorem undoOp_fst {α : Type} (uact : α → World → World × List Fault)
    (h : UndoHistory α) (w : World) :
    (UndoHistory.undoOp uact h w).1
      = if 0 < h.now then ⟨h.history, h.now - 1⟩ else h := by
  unfold UndoHistory.undoOp
  split <;> rfl

theorem redoOp_fst {α : Type} (ract : α → World → World × List Fault)
    (h : UndoHistory α) (w : World) :
    (UndoHistory.redoOp ract h w).1
      = if h.now < (h.history.length : Int) then ⟨h.history, h.now + 1⟩ else h := by
  unfold UndoHistory.redoOp
  split <;> rfl

theorem Inv_add {α : Type} (μ : α → α → Option α) (h : UndoHistory α)
    (item : α) (ext : Bool) (hI : Inv h) : Inv (h.add μ item ext).1 := by
  obtain ⟨hI1, hI2⟩ := hI
  cases ext
  · cases hm : addMergeStep μ h item with
    | some h' =>
      obtain ⟨h1, h2⟩ := addMergeStep_some hm ⟨hI1, hI2⟩
      rw [add_merge_eq μ h item h' hm]
      exact show Inv h' from ⟨by omega, by omega⟩
    | none =>
      rw [add_append_eq μ h item hm]
      refine show Inv (⟨h.history.take h.now.toNat ++ [[item]], h.now + 1⟩ :
        UndoHistory α) from ⟨by dsimp only; omega, ?_⟩
      dsimp only
      simp only [List.length_append, List.length_take, List.length_cons,
        List.length_nil]
      omega
  · rw [add_ext_eq]
    obtain ⟨e1, e2⟩ := extend_cases μ h item
    exact show Inv (h.extend μ item) from ⟨by omega, by omega⟩

theorem Inv_undoOp {α : Type} (uact : α → World → World × List Fault)
    (h : UndoHistory α) (w : World) (hI : Inv h) :
    Inv (UndoHistory.undoOp uact h w).1 := by
  obtain ⟨hI1, hI2⟩ := hI
  rw [Inv, undoOp_fst]
  split
  case isTrue hpos =>
    refine ⟨?_, ?_⟩ <;> dsimp only <;> omega
  case isFalse => exact ⟨hI1, hI2⟩

theorem Inv_redoOp {α : Type} (ract : α → World → World × List Fault)
    (h : UndoHistory α) (w : World) (hI : Inv h) :
    Inv (UndoHistory.redoOp ract h w).1 := by
  obtain ⟨hI1, hI2⟩ := hI
  rw [Inv, redoOp_fst]
  split
  case isTrue hlt =>
    refine ⟨?_, ?_⟩ <;> dsimp only <;> omega
  case isFalse => exact ⟨hI1, hI2⟩

theorem Inv_applyOp {α : Type} (μ : α → α → Option α)
    (uact ract : α → World → World × List Fault)
    (s : UndoHistory α × World) (op : HOp α) (hI : Inv s.1) :
    Inv (applyOp μ uact ract s op).1 := by
  cases op with
  | add item ext => exact Inv_add μ s.1 item ext hI
  | undo => exact Inv_undoOp uact s.1 s.2 hI
  | redo => exact Inv_redoOp ract s.1 s.2 hI
  | clear =>
    refine show Inv (⟨[], 0⟩ : UndoHistory α) from ⟨?_, ?_⟩ <;> simp

/-- C2: starting from the empty timeline, every sequence of
`add` / `undo` / `redo` / `clear` calls keeps `0 ≤ cursor ≤ len(history)`;
moreover `undo()` with the cursor at 0 changes nothing (state, world,
faults and signals), and so does `redo()` with the cursor at
`len(history)`.  Stated generically in the item type, merge function and
replay actions, so it covers every kind of undo item. -/
theorem c2_cursor_bounds (α : Type) (μ : α → α → Option α)
    (uact ract : α → World → World × List Fault)
    (ops : List (HOp α)) (w0 : World) :
    (0 ≤ (runOps μ uact ract ops w0).1.now
      ∧ (runOps μ uact ract ops w0).1.now
          ≤ ((runOps μ uact ract ops w0).1.history.length : Int))
    ∧ (∀ (h : UndoHistory α) (w : World), h.now = 0 →
        UndoHistory.undoOp uact h w = (h, w, [], []))
    ∧ (∀ (h : UndoHistory α) (w : World), h.now = (h.history.length : Int) →
        UndoHistory.redoOp ract h w = (h, w, [], [])) := by
  refine ⟨?_, ?_, ?_⟩
  · have H : ∀ (l : List (HOp α)) (s : UndoHistory α × World), Inv s.1 →
        Inv (l.foldl (applyOp μ uact ract) s).1 := by
      intro l
      induction l with
      | nil => intro s hs; exact hs
      | cons op rest ih =>
        intro s hs
        exact ih _ (Inv_applyOp μ uact ract s op hs)
    exact H ops (emptyHistory α, w0) (Inv_empty α)
  · intro h w hnow
    simp [UndoHistory.undoOp, hnow]
  · intro h w hnow
    simp [UndoHistory.redoOp, hnow]

/-- Witness for C2 at concrete inputs: a two-step run, an undo at cursor 0
and a redo at a saturated cursor. -/
theorem c2_witness :
    (0 ≤ (runOps (fun _ _ => none) (fun _ w => (w, [])) (fun _ w => (w, []))
          [HOp.add () false, HOp.undo] emptyWorld).1.now
      ∧ (runOps (fun _ _ => none) (fun _ w => (w, [])) (fun _ w => (w, []))
          [HOp.add () false, HOp.undo] emptyWorld).1.now
        ≤ (((runOps (fun _ _ => none) (fun _ w => (w, [])) (fun _ w => (w, []))
          [HOp.add () false, HOp.undo] emptyWorld).1.history.length : Int)))
    ∧ UndoHistory.undoOp (fun (_ : Unit) w => (w, [])) ⟨[[()]], 0⟩ emptyWorld
        = (⟨[[()]], 0⟩, emptyWorld, [], [])
    ∧ UndoHistory.redoOp (fun (_ : Unit) w => (w, [])) ⟨[[()]], 1⟩ emptyWorld
        = (⟨[[()]], 1⟩, emptyWorld, [], []) := by
  refine ⟨(c2_cursor_bounds Unit (fun _ _ => none) (fun _ w => (w, []))
      (fun _ w => (w, [])) [HOp.add () false, HOp.undo] emptyWorld).1, ?_, ?_⟩
  · exact (c2_cursor_bounds Unit (fun _ _ => none) (fun _ w => (w, []))
      (fun _ w => (w, [])) [] emptyWorld).2.1 ⟨[[()]], 0⟩ emptyWorld rfl
  · exact (c2_cursor_bounds Unit (fun _ _ => none) (fun _ w => (w, []))
      (fun _ w => (w, [])) [] emptyWorld).2.2 ⟨[[()]], 1⟩ emptyWorld rfl

/-! ### Claim C3 -/

/-- C3: evaluation of `merge_undo` at the spec's own boundary example.  The
record "hello" → "hellox" refuses to merge with "hellox" → "helloxy" — the
string branch of `UndoItem.merge_undo` is unreachable because line 130 of
`undo.py` asks `isinstance(t1, six.string_types)` about the *type object*
`t1 = type(v1)`, which is never an instance of `str`; control falls into
the sequence branch, where `len("hello") != len("helloxy")` fails.  The
second conjunct shows the algorithm of the dead branch itself (lines
135-145) would accept this input, as the claim and the source's own comment
describe; the third shows the claim's negative example does fail. -/
theorem c3_string_merge_dead :
    UndoItem.merge_undo
        ⟨0, "x", .vstr "hello".data, .vstr "hellox".data⟩
        ⟨0, "x", .vstr "hellox".data, .vstr "helloxy".data⟩ = none
    ∧ stringMerge ⟨0, "x", .vstr "hello".data, .vstr "hellox".data⟩
        (.vstr "helloxy".data)
      = some ⟨0, "x", .vstr "hello".data, .vstr "helloxy".data⟩
    ∧ UndoItem.merge_undo
        ⟨0, "x", .vstr "hello".data, .vstr "hellox".data⟩
        ⟨0, "x", .vstr "hellox".data, .vstr "goodbye".data⟩ = none :=
  ⟨rfl, rfl, rfl⟩

/-! ### Claim C4 -/

theorem isSeq_of_seqElems {v : PyVal} {xs : List PyVal}
    (h : seqElems v = some xs) : isSeq v = true := by
  cases v <;> simp_all [seqElems, isSeq, isSeqType, pyType]

theorem seqElems_isSome_of_isSeq {v : PyVal} (h : isSeq v = true) :
    ∃ xs, seqElems v = some xs := by
  cases v <;> simp_all [seqElems, isSeq, isSeqType, pyType]

theorem isSeqType_of_numeric {t : PyType} (h : numericType t = true) :
    isSeqType t = false := by
  cases t <;> simp_all [numericType, isSeqType]

/-- For a record whose new value is a sequence, `merge_undo` reduces to the
sequence branch under the class/object/field and type guards. -/
theorem merge_undo_seq_eq (r c : UndoItem) (hseq : isSeq r.new_value = true) :
    UndoItem.merge_undo r c
      = if r.obj = c.obj ∧ r.name = c.name then
          if pyType c.new_value = pyType r.new_value then
            seqMerge r c.new_value
          else none
        else none := by
  unfold UndoItem.merge_undo
  split
  · simp only [isinstanceOf, isinstance_type_str, Bool.false_eq_true,
      if_false, hseq, if_true, beq_iff_eq]
  · rfl

/-- The sequence branch succeeds exactly when the candidate's new value has
as many elements as the record's original old value and differs from it in
exactly one position. -/
theorem seqMerge_eq (r : UndoItem) (v2 : PyVal) (xs ys : List PyVal)
    (hxs : seqElems r.old_value = some xs) (hys : seqElems v2 = some ys) :
    seqMerge r v2
      = if xs.length = ys.length ∧ countDiffs xs ys = 1
        then some { r with new_value := v2 } else none := by
  unfold seqMerge
  simp only [isSeq_of_seqElems hxs, if_true, hxs, hys]
  split_ifs <;> (simp_all; try omega)

/-- C4 counterexample: a candidate new value that is *identical* to the
record's original old value (same length, zero differing positions, so "at
most one position" holds) does not merge — the code requires exactly one
difference (`if diffs == 0: return False`). -/
theorem c4_counterexample :
    UndoItem.merge_undo ⟨0, "x", .vlist [.vint 1], .vlist [.vint 2]⟩
        ⟨0, "x", .vlist [.vint 2], .vlist [.vint 1]⟩ = none
    ∧ seqElems (PyVal.vlist [.vint 1]) = some [.vint 1]
    ∧ countDiffs [.vint 1] [.vint 1] = 0 :=
  ⟨rfl, rfl, rfl⟩

/-- C4 (amended): for records on the same object and field whose new values
are sequences, `merge_undo` either fails or adopts the candidate's new
value, and it succeeds exactly when the candidate is of the same sequence
type as the record's new value and its elements are as many as the
*original* old value's and differ from them in **exactly one** position
(a position with a non-simple element type or a type mismatch counting as a
difference). -/
theorem c4_seq_merge (r c : UndoItem) (hseq : isSeq r.new_value = true) :
    (UndoItem.merge_undo r c = none
      ∨ UndoItem.merge_undo r c = some { r with new_value := c.new_value })
    ∧ (UndoItem.merge_undo r c = some { r with new_value := c.new_value }
        ↔ r.obj = c.obj ∧ r.name = c.name
            ∧ pyType c.new_value = pyType r.new_value
            ∧ ∃ xs ys, seqElems r.old_value = some xs
                ∧ seqElems c.new_value = some ys
                ∧ xs.length = ys.length ∧ countDiffs xs ys = 1) := by
  rw [merge_undo_seq_eq r c hseq]
  by_cases hg : r.obj = c.obj ∧ r.name = c.name
  case neg =>
    rw [if_neg hg]
    refine ⟨Or.inl rfl, ?_, ?_⟩
    · intro h; exact absurd h (by simp)
    · rintro ⟨h1, h2, _⟩; exact absurd ⟨h1, h2⟩ hg
  case pos =>
    rw [if_pos hg]
    by_cases ht : pyType c.new_value = pyType r.new_value
    case neg =>
      rw [if_neg ht]
      refine ⟨Or.inl rfl, ?_, ?_⟩
      · intro h; exact absurd h (by simp)
      · rintro ⟨_, _, h3, _⟩; exact absurd h3 ht
    case pos =>
      rw [if_pos ht]
      by_cases hold : isSeq r.old_value = true
      case pos =>
        obtain ⟨xs, hxs⟩ := seqElems_isSome_of_isSeq hold
        have hyseq : isSeq c.new_value = true := by
          rw [isSeq, ht]; exact hseq
        obtain ⟨ys, hys⟩ := seqElems_isSome_of_isSeq hyseq
        rw [seqMerge_eq r c.new_value xs ys hxs hys]
        by_cases hc : xs.length = ys.length ∧ countDiffs xs ys = 1
        case pos =>
          rw [if_pos hc]
          refine ⟨Or.inr rfl, ?_, ?_⟩
          · intro _; exact ⟨hg.1, hg.2, ht, xs, ys, hxs, hys, hc.1, hc.2⟩
          · intro _; rfl
        case neg =>
          rw [if_neg hc]
          refine ⟨Or.inl rfl, ?_, ?_⟩
          · intro h; exact absurd h (by simp)
          · rintro ⟨_, _, _, xs', ys', hxs', hys', hlen', hd'⟩
            rw [hxs'] at hxs
            rw [hys'] at hys
            cases hxs
            cases hys
            exact absurd ⟨hlen', hd'⟩ hc
      case neg =>
        have hnone : seqMerge r c.new_value = none := by
          unfold seqMerge
          simp only [Bool.not_eq_true] at hold
          simp [hold]
        rw [hnone]
        refine ⟨Or.inl rfl, ?_, ?_⟩
        · intro h; exact absurd h (by simp)
        · rintro ⟨_, _, _, xs', ys', hxs', _⟩
          exact absurd (isSeq_of_seqElems hxs') (by simp_all)

/-- Witness for C4 at a concrete input: a one-position change of a
two-element integer list merges and adopts the candidate's new value. -/
theorem c4_witness :
    isSeq (PyVal.vlist [.vint 2, .vint 5]) = true
    ∧ UndoItem.merge_undo
        ⟨0, "x", .vlist [.vint 1, .vint 5], .vlist [.vint 2, .vint 5]⟩
        ⟨0, "x", .vlist [.vint 2, .vint 5], .vlist [.vint 3, .vint 5]⟩
      = some ⟨0, "x", .vlist [.vint 1, .vint 5], .vlist [.vint 3, .vint 5]⟩ := by
  refine ⟨rfl, ?_⟩
  exact (c4_seq_merge
    ⟨0, "x", .vlist [.vint 1, .vint 5], .vlist [.vint 2, .vint 5]⟩
    ⟨0, "x", .vlist [.vint 2, .vint 5], .vlist [.vint 3, .vint 5]⟩ rfl).2.mpr
    ⟨rfl, rfl, rfl, [.vint 1, .vint 5], [.vint 3, .vint 5], rfl, rfl, rfl, rfl⟩

/-! ### Claim C5 -/

theorem isSeqType_of_numericType {t : PyType} (h : numericType t = true) :
    isSeqType t = false := by
  cases t <;> simp_all [numericType, isSeqType]

/-- Numeric new values of the same exact Python type always merge, adopting
the candidate's new value. -/
theorem merge_undo_numeric (r c : UndoItem) (hobj : r.obj = c.obj)
    (hname : r.name = c.name) (hnum : numericType (pyType r.new_value) = true)
    (hty : pyType c.new_value = pyType r.new_value) :
    UndoItem.merge_undo r c = some { r with new_value := c.new_value } := by
  unfold UndoItem.merge_undo
  rw [if_pos (show r.obj = c.obj ∧ r.name = c.name from ⟨hobj, hname⟩)]
  simp only [isinstanceOf, beq_iff_eq, hty, if_true, isinstance_type_str,
    Bool.false_eq_true, if_false, isSeq, isSeqType_of_numericType hnum, hnum]

/-- C5 counterexample: an integer-valued record and a float-valued
candidate.  Both new values are plain numeric scalars, yet the merge fails,
because the code also demands `isinstance(v2, type(v1))` — the candidate's
new value must have the record's new value's exact type. -/
theorem c5_counterexample :
    UndoItem.merge_undo ⟨0, "x", .vint 0, .vint 1⟩ ⟨0, "x", .vint 1, .vfloat 0⟩
      = none
    ∧ numericType (pyType (PyVal.vint 1)) = true
    ∧ numericType (pyType (PyVal.vfloat 0)) = true :=
  ⟨rfl, rfl, rfl⟩

/-- C5 (amended): for records on the same object and field whose new values
are numeric scalars *of the same numeric type*, `merge_undo` always
succeeds and adopts the candidate's new value; consequently recording the
integer changes A→B then B→C on one field of an empty timeline leaves a
single one-record transaction whose record's `undo` writes A to the field
and whose `redo` writes C. -/
theorem c5_numeric_merge :
    (∀ (r c : UndoItem), r.obj = c.obj → r.name = c.name →
        numericType (pyType r.new_value) = true →
        pyType c.new_value = pyType r.new_value →
        UndoItem.merge_undo r c = some { r with new_value := c.new_value })
    ∧ (∀ (o : Nat) (nm : String) (A B C : Int) (w : World),
        (UndoHistory.add ChangeRecord.merge_undo
          ((UndoHistory.add ChangeRecord.merge_undo (emptyHistory ChangeRecord)
            (.undoItem ⟨o, nm, .vint A, .vint B⟩) false).1)
          (.undoItem ⟨o, nm, .vint B, .vint C⟩) false).1
          = ⟨[[.undoItem ⟨o, nm, .vint A, .vint C⟩]], 1⟩
        ∧ getF (UndoItem.undo pureModel ⟨o, nm, .vint A, .vint C⟩ w).1 o nm
            = .vint A
        ∧ getF (UndoItem.redo pureModel ⟨o, nm, .vint A, .vint C⟩ w).1 o nm
            = .vint C) := by
  constructor
  · intro r c hobj hname hnum hty
    exact merge_undo_numeric r c hobj hname hnum hty
  · intro o nm A B C w
    have h1 : (UndoHistory.add ChangeRecord.merge_undo
        (emptyHistory ChangeRecord) (.undoItem ⟨o, nm, .vint A, .vint B⟩)
        false).1 = ⟨[[.undoItem ⟨o, nm, .vint A, .vint B⟩]], 1⟩ := rfl
    have hmerge : ChangeRecord.merge_undo
        (.undoItem ⟨o, nm, .vint A, .vint B⟩)
        (.undoItem ⟨o, nm, .vint B, .vint C⟩)
        = some (.undoItem ⟨o, nm, .vint A, .vint C⟩) := by
      show (UndoItem.merge_undo ⟨o, nm, .vint A, .vint B⟩
          ⟨o, nm, .vint B, .vint C⟩).map ChangeRecord.undoItem
        = some (.undoItem ⟨o, nm, .vint A, .vint C⟩)
      rw [merge_undo_numeric ⟨o, nm, .vint A, .vint B⟩ ⟨o, nm, .vint B, .vint C⟩
        rfl rfl rfl rfl]
      rfl
    have h2 : addMergeStep ChangeRecord.merge_undo
        (⟨[[.undoItem ⟨o, nm, .vint A, .vint B⟩]], 1⟩ : UndoHistory ChangeRecord)
        (.undoItem ⟨o, nm, .vint B, .vint C⟩)
        = some ⟨[[.undoItem ⟨o, nm, .vint A, .vint C⟩]], 1⟩ := by
      unfold addMergeStep
      simp only [show ((1 : Int) - 1).toNat = 0 from rfl, List.getD]
      norm_num [hmerge]
    refine ⟨?_, ?_, ?_⟩
    · rw [h1, add_merge_eq _ _ _ _ h2]
    · simp [UndoItem.undo, trySetattr, pureModel, getF_setF_same]
    · simp [UndoItem.redo, trySetattr, pureModel, getF_setF_same]

/-- Witness for C5 at a concrete input: 0→1 then 1→2 merges into 0→2. -/
theorem c5_witness :
    UndoItem.merge_undo ⟨0, "x", .vint 0, .vint 1⟩ ⟨0, "x", .vint 1, .vint 2⟩
      = some ⟨0, "x", .vint 0, .vint 2⟩
    ∧ (UndoHistory.add ChangeRecord.merge_undo
          ((UndoHistory.add ChangeRecord.merge_undo (emptyHistory ChangeRecord)
            (.undoItem ⟨0, "x", .vint 0, .vint 1⟩) false).1)
          (.undoItem ⟨0, "x", .vint 1, .vint 2⟩) false).1
        = ⟨[[.undoItem ⟨0, "x", .vint 0, .vint 2⟩]], 1⟩ :=
  ⟨c5_numeric_merge.1 ⟨0, "x", .vint 0, .vint 1⟩ ⟨0, "x", .vint 1, .vint 2⟩
      rfl rfl rfl rfl,
    (c5_numeric_merge.2 0 "x" 0 1 2 emptyWorld).1⟩

/-! ### Claim C6 -/

/-- C6: when the item does not merge into the single-record transaction
behind the cursor, `add(item, extend=False)` truncates every transaction at
index ≥ cursor, appends a fresh single-record transaction holding the item,
and advances the cursor by one; `redoable False` is emitted exactly when the
truncation removed redoable transactions. -/
theorem c6_truncation {α : Type} (μ : α → α → Option α) (h : UndoHistory α)
    (item : α) (hm : addMergeStep μ h item = none) :
    (h.add μ item false).1.history = h.history.take h.now.toNat ++ [[item]]
    ∧ (h.add μ item false).1.now = h.now + 1
    ∧ (h.now < (h.history.length : Int) →
        Sig.redoable false ∈ (h.add μ item false).2)
    ∧ ((h.history.length : Int) ≤ h.now →
        Sig.redoable false ∉ (h.add μ item false).2) := by
  rw [add_append_eq μ h item hm]
  refine ⟨rfl, rfl, ?_, ?_⟩
  · intro hlt
    have : h.now + 1 ≤ (h.history.length : Int) := by omega
    simp [this]
  · intro hge
    have : ¬(h.now + 1 ≤ (h.history.length : Int)) := by omega
    simp [this]

/-- Witness for C6: the spec's truncation scenario.  Transactions
[T1, T2, T3] with the cursor at 1; recording a non-merging edit T4 yields
[T1, T4] with cursor 2 and emits `redoable False`. -/
theorem c6_witness :
    addMergeStep ChangeRecord.merge_undo
      (⟨[[.undoItem ⟨0, "x", .vint 0, .vint 1⟩],
         [.undoItem ⟨0, "x", .vint 1, .vint 2⟩],
         [.undoItem ⟨0, "x", .vint 2, .vint 3⟩]], 1⟩ : UndoHistory ChangeRecord)
      (.undoItem ⟨0, "y", .vint 0, .vint 1⟩) = none
    ∧ ((⟨[[.undoItem ⟨0, "x", .vint 0, .vint 1⟩],
          [.undoItem ⟨0, "x", .vint 1, .vint 2⟩],
          [.undoItem ⟨0, "x", .vint 2, .vint 3⟩]], 1⟩ :
        UndoHistory ChangeRecord).add ChangeRecord.merge_undo
          (.undoItem ⟨0, "y", .vint 0, .vint 1⟩) false).1.history
        = [[.undoItem ⟨0, "x", .vint 0, .vint 1⟩],
           [.undoItem ⟨0, "y", .vint 0, .vint 1⟩]]
    ∧ ((⟨[[.undoItem ⟨0, "x", .vint 0, .vint 1⟩],
          [.undoItem ⟨0, "x", .vint 1, .vint 2⟩],
          [.undoItem ⟨0, "x", .vint 2, .vint 3⟩]], 1⟩ :
        UndoHistory ChangeRecord).add ChangeRecord.merge_undo
          (.undoItem ⟨0, "y", .vint 0, .vint 1⟩) false).1.now = 2
    ∧ Sig.redoable false
        ∈ ((⟨[[.undoItem ⟨0, "x", .vint 0, .vint 1⟩],
              [.undoItem ⟨0, "x", .vint 1, .vint 2⟩],
              [.undoItem ⟨0, "x", .vint 2, .vint 3⟩]], 1⟩ :
            UndoHistory ChangeRecord).add ChangeRecord.merge_undo
              (.undoItem ⟨0, "y", .vint 0, .vint 1⟩) false).2 := by
  have H := c6_truncation ChangeRecord.merge_undo
    (⟨[[.undoItem ⟨0, "x", .vint 0, .vint 1⟩],
       [.undoItem ⟨0, "x", .vint 1, .vint 2⟩],
       [.undoItem ⟨0, "x", .vint 2, .vint 3⟩]], 1⟩ : UndoHistory ChangeRecord)
    (.undoItem ⟨0, "y", .vint 0, .vint 1⟩) rfl
  exact ⟨rfl, H.1, H.2.1, H.2.2.1 (by norm_num)⟩

/-! ### Claim C7 -/

/-- C7 counterexample: timeline [T1, T2] with cursor 1 (T2 redoable);
recording an item that merges into T1 truncates T2 away but emits **no**
signal at all — in particular no `redoable False` — because the merge
branch of `add` returns before the signal assignments. -/
theorem c7_counterexample :
    UndoHistory.add ChangeRecord.merge_undo
      (⟨[[.undoItem ⟨0, "x", .vint 0, .vint 1⟩],
         [.undoItem ⟨0, "x", .vint 1, .vint 2⟩]], 1⟩ : UndoHistory ChangeRecord)
      (.undoItem ⟨0, "x", .vint 1, .vint 2⟩) false
      = (⟨[[.undoItem ⟨0, "x", .vint 0, .vint 2⟩]], 1⟩, []) := rfl

/-- The successful merge branch of `add`, in structural form. -/
theorem addMergeStep_struct {α : Type} {μ : α → α → Option α}
    {h : UndoHistory α} {item : α} {h' : UndoHistory α}
    (hm : addMergeStep μ h item = some h') :
    0 < h.now ∧ ∃ p m, h.history.getD (h.now - 1).toNat [] = [p]
      ∧ μ p item = some m
      ∧ h' = ⟨(h.history.set (h.now - 1).toNat [m]).take h.now.toNat, h.now⟩ := by
  unfold addMergeStep at hm
  split at hm
  case isTrue hpos =>
    split at hm
    case h_1 p heq =>
      split at hm
      case h_1 m hmerge =>
        cases hm
        exact ⟨hpos, p, m, heq, hmerge, rfl⟩
      case h_2 => exact absurd hm (by simp)
    case h_2 => exact absurd hm (by simp)
  case isFalse => exact absurd hm (by simp)

/-- C7 (amended): when `add(item, extend=False)` is called at cursor > 0
and the single-record transaction behind the cursor merges the item,
everything from the cursor on is discarded (the result keeps exactly
`cursor` transactions, the merge target replaced by the merged record), the
cursor does not move, and **no** signal is emitted — even when the
truncation removed redoable transactions. -/
theorem c7_merge_truncates_silently {α : Type} (μ : α → α → Option α)
    (h : UndoHistory α) (item : α) (h' : UndoHistory α)
    (hm : addMergeStep μ h item = some h') (hI : Inv h) :
    h.add μ item false = (h', [])
    ∧ h'.now = h.now
    ∧ (h'.history.length : Int) = h.now
    ∧ ∃ p m, h.history.getD (h.now - 1).toNat [] = [p] ∧ μ p item = some m
        ∧ h'.history = (h.history.set (h.now - 1).toNat [m]).take h.now.toNat := by
  obtain ⟨hpos, p, m, heq, hmerge, hstruct⟩ := addMergeStep_struct hm
  refine ⟨add_merge_eq μ h item h' hm, (addMergeStep_some hm hI).1,
    (addMergeStep_some hm hI).2, p, m, heq, hmerge, ?_⟩
  rw [hstruct]

/-- Witness for C7 at the counterexample input: the merged state keeps the
cursor at 1 and one transaction; no signal fires. -/
theorem c7_witness :
    (⟨[[.undoItem ⟨0, "x", .vint 0, .vint 1⟩],
       [.undoItem ⟨0, "x", .vint 1, .vint 2⟩]], 1⟩ :
      UndoHistory ChangeRecord).add ChangeRecord.merge_undo
        (.undoItem ⟨0, "x", .vint 1, .vint 2⟩) false
      = (⟨[[.undoItem ⟨0, "x", .vint 0, .vint 2⟩]], 1⟩, [])
    ∧ ((⟨[[.undoItem ⟨0, "x", .vint 0, .vint 2⟩]], 1⟩ :
        UndoHistory ChangeRecord).now = 1
    ∧ (((⟨[[.undoItem ⟨0, "x", .vint 0, .vint 2⟩]], 1⟩ :
        UndoHistory ChangeRecord).history.length : Int) = 1)) := by
  have H := c7_merge_truncates_silently ChangeRecord.merge_undo
    (⟨[[.undoItem ⟨0, "x", .vint 0, .vint 1⟩],
       [.undoItem ⟨0, "x", .vint 1, .vint 2⟩]], 1⟩ : UndoHistory ChangeRecord)
    (.undoItem ⟨0, "x", .vint 1, .vint 2⟩)
    ⟨[[.undoItem ⟨0, "x", .vint 0, .vint 2⟩]], 1⟩ rfl
    ⟨by norm_num, by norm_num⟩
  exact ⟨H.1, H.2.1, H.2.2.1⟩

/-! ### Claim C8 -/

/-- C8 counterexample: a timeline with one (fully undone) transaction and
the cursor at 0.  A last transaction is present, yet
`add(item, extend=True)` changes nothing — `extend` keys on the cursor, not
on the timeline being non-empty. -/
theorem c8_counterexample :
    UndoHistory.extend ChangeRecord.merge_undo
      (⟨[[.undoItem ⟨0, "x", .vint 0, .vint 1⟩]], 0⟩ : UndoHistory ChangeRecord)
      (.undoItem ⟨0, "y", .vint 0, .vint 1⟩)
      = ⟨[[.undoItem ⟨0, "x", .vint 0, .vint 1⟩]], 0⟩
    ∧ ([[ChangeRecord.undoItem ⟨0, "x", .vint 0, .vint 1⟩]] :
        List (List ChangeRecord)) ≠ [] := by
  exact ⟨rfl, by simp⟩

/-- C8 (amended): `add(item, extend=True)` never creates a new transaction
and never moves the cursor; it is a no-op whenever the cursor is at 0 (even
if transactions exist beyond the cursor), and when the cursor is positive
it merges the item into the last record of the transaction *immediately
behind the cursor* — `history[now - 1]`, not necessarily the last
transaction — appending the item to that transaction if the merge fails. -/
theorem c8_extend_behind_cursor {α : Type} (μ : α → α → Option α)
    (h : UndoHistory α) (item : α) :
    (h.now ≤ 0 → h.extend μ item = h)
    ∧ (h.extend μ item).now = h.now
    ∧ (h.extend μ item).history.length = h.history.length
    ∧ (∀ p ps m, 0 < h.now →
        h.history.getD (h.now - 1).toNat [] = ps ++ [p] →
        μ p item = some m →
        (h.extend μ item).history
          = h.history.set (h.now - 1).toNat (ps ++ [m]))
    ∧ (∀ p ps, 0 < h.now →
        h.history.getD (h.now - 1).toNat [] = ps ++ [p] →
        μ p item = none →
        (h.extend μ item).history
          = h.history.set (h.now - 1).toNat (ps ++ [p] ++ [item])) := by
  refine ⟨?_, (extend_cases μ h item).1, (extend_cases μ h item).2, ?_, ?_⟩
  · intro hle
    unfold UndoHistory.extend
    rw [if_neg (by omega)]
  · intro p ps m hpos heq hmerge
    unfold UndoHistory.extend
    rw [if_pos hpos]
    simp only [heq, List.getLast?_concat, hmerge, List.dropLast_concat]
  · intro p ps hpos heq hmerge
    unfold UndoHistory.extend
    rw [if_pos hpos]
    simp only [heq, List.getLast?_concat, hmerge]

/-- Witness for C8: cursor 1 with a redo tail; extending appends to the
transaction behind the cursor (index 0), leaving the later transaction
untouched. -/
theorem c8_witness :
    (⟨[[.undoItem ⟨0, "x", .vint 0, .vint 1⟩],
       [.undoItem ⟨0, "x", .vint 1, .vint 2⟩]], 1⟩ :
      UndoHistory ChangeRecord).extend ChangeRecord.merge_undo
        (.undoItem ⟨0, "y", .vint 0, .vint 1⟩)
      = ⟨[[.undoItem ⟨0, "x", .vint 0, .vint 1⟩,
           .undoItem ⟨0, "y", .vint 0, .vint 1⟩],
          [.undoItem ⟨0, "x", .vint 1, .vint 2⟩]], 1⟩ := by
  have H := (c8_extend_behind_cursor ChangeRecord.merge_undo
    (⟨[[.undoItem ⟨0, "x", .vint 0, .vint 1⟩],
       [.undoItem ⟨0, "x", .vint 1, .vint 2⟩]], 1⟩ : UndoHistory ChangeRecord)
    (.undoItem ⟨0, "y", .vint 0, .vint 1⟩))
  have h1 := H.2.2.2.2 (.undoItem ⟨0, "x", .vint 0, .vint 1⟩) []
    (by norm_num) rfl rfl
  have h2 := H.2.1
  have h3 := H.2.2.1
  cases he : (⟨[[.undoItem ⟨0, "x", .vint 0, .vint 1⟩],
       [.undoItem ⟨0, "x", .vint 1, .vint 2⟩]], 1⟩ :
      UndoHistory ChangeRecord).extend ChangeRecord.merge_undo
        (.undoItem ⟨0, "y", .vint 0, .vint 1⟩) with
  | mk hist now =>
    rw [he] at h1 h2
    dsimp only at h1 h2
    rw [h1, h2]
    rfl

/-! ### Claim C9 -/

/-- Folding the undo replay from an arbitrary accumulator only prepends the
accumulated faults: the replay never escapes the loop. -/
theorem replayUndo_shift {α : Type} (uact : α → World → World × List Fault)
    (l : List α) (p : World × List Fault) :
    l.foldr (fun it acc => let r := uact it acc.1; (r.1, acc.2 ++ r.2)) p
      = ((replayUndo uact l p.1).1, p.2 ++ (replayUndo uact l p.1).2) := by
  induction l generalizing p with
  | nil => simp [replayUndo]
  | cons x xs ih =>
    simp only [replayUndo, List.foldr_cons] at *
    rw [ih p, ih (p.1, [])]
    simp [List.append_assoc]

/-- Same statement for the forward redo replay. -/
theorem replayRedo_shift {α : Type} (ract : α → World → World × List Fault)
    (l : List α) (p : World × List Fault) :
    l.foldl (fun acc it => let r := ract it acc.1; (r.1, acc.2 ++ r.2)) p
      = ((replayRedo ract l p.1).1, p.2 ++ (replayRedo ract l p.1).2) := by
  induction l generalizing p with
  | nil => simp [replayRedo]
  | cons x xs ih =>
    simp only [replayRedo, List.foldl_cons] at *
    rw [ih ((ract x p.1).1, p.2 ++ (ract x p.1).2),
      ih ((ract x p.1).1, [] ++ (ract x p.1).2)]
    simp [List.append_assoc]

/-- C9: a target mutation fault is caught at the individual record — the
record's `undo`/`redo` returns with the world unchanged and the fault
routed to the sink — and a transaction replay always processes every
record: replaying `pre ++ [it] ++ post` equals replaying `post` (undo runs
in reverse), then `it`, then `pre`, with the three fault batches
concatenated, whatever faults occur. -/
theorem c9_fault_isolation :
    (∀ (M : ObjModel) (r : UndoItem) (w : World),
        M.valid r.obj r.name r.old_value = false →
        UndoItem.undo M r w = (w, [.fault r.obj r.name]))
    ∧ (∀ (M : ObjModel) (r : UndoItem) (w : World),
        M.valid r.obj r.name r.new_value = false →
        UndoItem.redo M r w = (w, [.fault r.obj r.name]))
    ∧ (∀ (r : ListUndoItem) (w : World),
        (∀ xs, getF w r.obj r.name ≠ .vlist xs) →
        ListUndoItem.undo r w = (w, [.fault r.obj r.name])
          ∧ ListUndoItem.redo r w = (w, [.fault r.obj r.name]))
    ∧ (∀ (M : ObjModel) (pre post : List ChangeRecord) (it : ChangeRecord)
        (w : World),
        transactionUndo M (pre ++ it :: post) w
          = ((transactionUndo M pre
                (ChangeRecord.undo M it (transactionUndo M post w).1).1).1,
             (transactionUndo M post w).2
               ++ (ChangeRecord.undo M it (transactionUndo M post w).1).2
               ++ (transactionUndo M pre
                (ChangeRecord.undo M it (transactionUndo M post w).1).1).2))
    ∧ (∀ (M : ObjModel) (pre post : List ChangeRecord) (it : ChangeRecord)
        (w : World),
        transactionRedo M (pre ++ it :: post) w
          = ((transactionRedo M post
                (ChangeRecord.redo M it (transactionRedo M pre w).1).1).1,
             (transactionRedo M pre w).2
               ++ (ChangeRecord.redo M it (transactionRedo M pre w).1).2
               ++ (transactionRedo M post
                (ChangeRecord.redo M it (transactionRedo M pre w).1).1).2)) := by
  refine ⟨?_, ?_, ?_, ?_, ?_⟩
  · intro M r w hv
    unfold UndoItem.undo trySetattr
    simp [hv]
  · intro M r w hv
    unfold UndoItem.redo trySetattr
    simp [hv]
  · intro r w hnl
    constructor
    · unfold ListUndoItem.undo
      split
      next xs heq => exact absurd heq (hnl xs)
      next => rfl
    · unfold ListUndoItem.redo
      split
      next xs heq => exact absurd heq (hnl xs)
      next => rfl
  · intro M pre post it w
    unfold transactionUndo replayUndo
    rw [List.foldr_append, List.foldr_cons]
    rw [replayUndo_shift (ChangeRecord.undo M) pre]
    rw [replayUndo_shift (ChangeRecord.undo M) post (w, [])]
    simp [replayUndo, List.append_assoc]
  · intro M pre post it w
    unfold transactionRedo replayRedo
    rw [List.foldl_append, List.foldl_cons]
    rw [replayRedo_shift (ChangeRecord.redo M) post]
    rw [replayRedo_shift (ChangeRecord.redo M) pre (w, [])]
    simp [replayRedo, List.append_assoc]

/-- Witness for C9: an object model that rejects every write faults the
field record's `undo` without raising or changing the world, and a splice
record whose field is not a list faults likewise; a two-record transaction
with the second record faulting still replays the first. -/
theorem c9_witness :
    UndoItem.undo ⟨fun _ _ _ => false⟩ ⟨0, "x", .vint 0, .vint 1⟩ emptyWorld
      = (emptyWorld, [.fault 0 "x"])
    ∧ ListUndoItem.undo ⟨0, "l", 0, [], []⟩ emptyWorld
      = (emptyWorld, [.fault 0 "l"])
    ∧ transactionUndo ⟨fun _ n _ => n = "x"⟩
        [.undoItem ⟨0, "x", .vint 0, .vint 1⟩, .undoItem ⟨0, "y", .vint 0, .vint 1⟩]
        emptyWorld
      = ((transactionUndo ⟨fun _ n _ => n = "x"⟩
            [.undoItem ⟨0, "x", .vint 0, .vint 1⟩]
            (ChangeRecord.undo ⟨fun _ n _ => n = "x"⟩
              (.undoItem ⟨0, "y", .vint 0, .vint 1⟩)
              (transactionUndo ⟨fun _ n _ => n = "x"⟩ [] emptyWorld).1).1).1,
         (transactionUndo ⟨fun _ n _ => n = "x"⟩ [] emptyWorld).2
           ++ (ChangeRecord.undo ⟨fun _ n _ => n = "x"⟩
              (.undoItem ⟨0, "y", .vint 0, .vint 1⟩)
              (transactionUndo ⟨fun _ n _ => n = "x"⟩ [] emptyWorld).1).2
           ++ (transactionUndo ⟨fun _ n _ => n = "x"⟩
            [.undoItem ⟨0, "x", .vint 0, .vint 1⟩]
            (ChangeRecord.undo ⟨fun _ n _ => n = "x"⟩
              (.undoItem ⟨0, "y", .vint 0, .vint 1⟩)
              (transactionUndo ⟨fun _ n _ => n = "x"⟩ [] emptyWorld).1).1).2) := by
  refine ⟨?_, ?_, ?_⟩
  · exact c9_fault_isolation.1 ⟨fun _ _ _ => false⟩ ⟨0, "x", .vint 0, .vint 1⟩
      emptyWorld rfl
  · exact (c9_fault_isolation.2.2.1 ⟨0, "l", 0, [], []⟩ emptyWorld
      (fun xs h => PyVal.noConfusion h)).1
  · exact c9_fault_isolation.2.2.2.1 ⟨fun _ n _ => n = "x"⟩
      [.undoItem ⟨0, "x", .vint 0, .vint 1⟩]
      [] (.undoItem ⟨0, "y", .vint 0, .vint 1⟩) emptyWorld

/-! ### Claim C10 -/

/-- The countdown loop of `UndoHistoryUndoItem.undo` equals an undo replay
over the reversed first `k` transactions. -/
theorem replayHistUndo_eq (M : ObjModel) (hs : List (List ChangeRecord))
    (k : Nat) (hk : k ≤ hs.length) (w : World) (fs : List Fault) :
    (replayHistUndo M hs k (w, fs)).1
      = ((hs.take k).reverse).foldl
          (fun ww t => (transactionUndo M t ww).1) w := by
  induction k generalizing w fs with
  | zero => simp [replayHistUndo]
  | succ k ih =>
    have hk' : k < hs.length := by omega
    have htk : hs.take (k + 1) = hs.take k ++ [hs.getD k []] := by
      rw [List.take_succ]
      congr 1
      rw [List.getElem?_eq_getElem hk']
      simp [List.getD, List.getElem?_eq_getElem hk']
    rw [htk]
    simp only [List.reverse_append, List.reverse_cons, List.reverse_nil,
      List.nil_append, List.singleton_append, List.foldl_cons]
    rw [replayHistUndo]
    exact ih (by omega) _ _

/-- The count-up loop of `UndoHistoryUndoItem.redo` equals a redo replay
over the first `k` transactions in order. -/
theorem replayHistRedo_eq (M : ObjModel) (hs : List (List ChangeRecord))
    (k : Nat) (hk : k ≤ hs.length) (w : World) (fs : List Fault) :
    (replayHistRedo M hs k (w, fs)).1
      = (hs.take k).foldl (fun ww t => (transactionRedo M t ww).1) w := by
  induction k generalizing w fs with
  | zero => simp [replayHistRedo]
  | succ k ih =>
    have hk' : k < hs.length := by omega
    have htk : hs.take (k + 1) = hs.take k ++ [hs.getD k []] := by
      rw [List.take_succ]
      congr 1
      rw [List.getElem?_eq_getElem hk']
      simp [List.getD, List.getElem?_eq_getElem hk']
    rw [htk, List.foldl_append, List.foldl_cons, List.foldl_nil]
    rw [replayHistRedo]
    dsimp only
    rw [ih (by omega) w fs]

/-- C10: a composite history record's `undo` replays the nested timeline's
transactions from `cursor - 1` down to `0` (each transaction's records in
reverse order) and its `redo` replays them from `0` up to `cursor - 1` in
forward order, while the nested timeline itself — its transaction list and
its cursor — is returned untouched. -/
theorem c10_nested_replay (M : ObjModel) (u : UndoHistoryUndoItem) (w : World)
    (hk : u.history.now.toNat ≤ u.history.history.length) :
    (u.undo M w).1 = u
    ∧ (u.undo M w).2.1
        = ((u.history.history.take u.history.now.toNat).reverse).foldl
            (fun ww t => (transactionUndo M t ww).1) w
    ∧ (u.redo M w).1 = u
    ∧ (u.redo M w).2.1
        = (u.history.history.take u.history.now.toNat).foldl
            (fun ww t => (transactionRedo M t ww).1) w := by
  refine ⟨rfl, ?_, rfl, ?_⟩
  · exact replayHistUndo_eq M u.history.history u.history.now.toNat hk w []
  · exact replayHistRedo_eq M u.history.history u.history.now.toNat hk w []

/-- Witness for C10: a nested timeline with two one-record transactions and
cursor 2, replayed against the always-accepting object model. -/
theorem c10_witness :
    ((UndoHistoryUndoItem.mk ⟨[[.undoItem ⟨0, "x", .vint 0, .vint 1⟩],
        [.undoItem ⟨0, "x", .vint 1, .vint 2⟩]], 2⟩).undo pureModel emptyWorld).1
      = UndoHistoryUndoItem.mk ⟨[[.undoItem ⟨0, "x", .vint 0, .vint 1⟩],
        [.undoItem ⟨0, "x", .vint 1, .vint 2⟩]], 2⟩
    ∧ ((UndoHistoryUndoItem.mk ⟨[[.undoItem ⟨0, "x", .vint 0, .vint 1⟩],
        [.undoItem ⟨0, "x", .vint 1, .vint 2⟩]], 2⟩).undo pureModel
          emptyWorld).2.1
      = (((⟨[[.undoItem ⟨0, "x", .vint 0, .vint 1⟩],
            [.undoItem ⟨0, "x", .vint 1, .vint 2⟩]], 2⟩ :
          UndoHistory ChangeRecord).history.take (Int.toNat 2)).reverse).foldl
          (fun ww t => (transactionUndo pureModel t ww).1) emptyWorld := by
  have H := c10_nested_replay pureModel
    (UndoHistoryUndoItem.mk ⟨[[.undoItem ⟨0, "x", .vint 0, .vint 1⟩],
      [.undoItem ⟨0, "x", .vint 1, .vint 2⟩]], 2⟩) emptyWorld (by decide)
  exact ⟨H.1, H.2.1⟩

end Traitsui
